import Mathlib

/-!
# Verification of the sedori-app repricing front end and rule engine

Shallow embedding of the repricing components of the repository:

* `pwa/src/types/repricer.ts` — the rule / config / result data model;
* `pwa/src/app/components/RepricerSettingsTable.tsx` — rule editing
  (`handleRuleChange`), the settings-table rendering (`getDaysRange`,
  `formatDayLabel`), and the preview/apply request flow (`runProcessing`);
* `pwa/src/app/components/ResultsDisplay.tsx` — the result summary grid and
  the CSV download path (`handleDownload`);
* the server-side repricing engine, whose source is not part of the
  repository snapshot: those definitions are modelled from the
  specification and are marked `Modelled from the spec:` in their doc
  comments.

Machine integers are modelled as `Int`/`Nat`; JavaScript `null` as
`Option.none`; thrown exceptions as explicit result constructors.
-/

namespace Sedori

/-! ## Rule data model (`pwa/src/types/repricer.ts`) -/

/-- One repricing rule, from `RepriceRule` in `repricer.ts`:
`days_from : number`, `action : string enum`, `value : number | null`. -/
structure RepriceRule where
  days_from : Int
  action : String
  value : Option Int
deriving DecidableEq, Repr

/-- The two shapes `RepriceConfig.reprice_rules` may arrive in:
an ordered array of rules, or a mapping keyed by a day string
(`RepriceRule[] | { [days: string]: RepriceRule }`). -/
inductive RulesRepr where
  | list (rs : List RepriceRule)
  | mapping (m : List (String × RepriceRule))
deriving DecidableEq, Repr

/-- `RepriceConfig` from `repricer.ts`. -/
structure RepriceConfig where
  q4_rule_enabled : Option Bool
  reprice_rules : RulesRepr
  updated_at : String
deriving DecidableEq, Repr

/-- The `Array.isArray(prevConfig.reprice_rules) ? prevConfig.reprice_rules : []`
coercion used by both `handleRuleChange` and the table renderer: an array is
used as-is, any non-array shape (the mapping form) becomes the empty list. -/
def rulesAsArray : RulesRepr → List RepriceRule
  | .list rs => rs
  | .mapping _ => []

/-! ## Rule editing (`handleRuleChange`) -/

/-- An edit coming from the settings table: the `field`/`value` pair passed to
`handleRuleChange` — either the action `<select>` (a string) or the
priceTrace `<select>` (a parsed integer). -/
inductive RuleEdit where
  | setAction (a : String)
  | setValue (v : Int)
deriving DecidableEq, Repr

/-- The update applied to the rule whose `days_from` matches: spread the new
field over the rule, then run the linkage logic — when the action is changed
to a non-`priceTrace` action the `value` is reset to `0`; when it is changed
to `priceTrace` and the stored value is `0` or `null`, the value becomes `1`. -/
def applyEdit : RuleEdit → RepriceRule → RepriceRule
  | .setAction a, rule =>
      let updatedRule := { rule with action := a }
      if a ≠ "priceTrace" then
        { updatedRule with value := some 0 }
      else if updatedRule.value = some 0 ∨ updatedRule.value = none then
        { updatedRule with value := some 1 }
      else
        updatedRule
  | .setValue v, rule => { rule with value := some v }

/-- `handleRuleChange` over the rule list: map over the rules, applying the
edit to every rule whose `days_from` equals the edited row's. -/
def handleRuleChange (days_from : Int) (e : RuleEdit)
    (rules : List RepriceRule) : List RepriceRule :=
  rules.map fun rule =>
    if rule.days_from = days_from then applyEdit e rule else rule

/-- The full `setConfig` state update performed by `handleRuleChange`: the
incoming rules go through the `Array.isArray` coercion, are mapped, and the
config is rebuilt with the new (array-shaped) rule list. -/
def handleRuleChangeConfig (days_from : Int) (e : RuleEdit)
    (cfg : RepriceConfig) : RepriceConfig :=
  { cfg with reprice_rules := .list (handleRuleChange days_from e (rulesAsArray cfg.reprice_rules)) }

/-! ## Settings-table rendering -/

/-- The `DAYS_INTERVALS` constant. -/
def DAYS_INTERVALS : List Int :=
  [30, 60, 90, 120, 150, 180, 210, 240, 270, 300, 330, 360]

/-- `formatDayLabel` (defined in the component but not used by the render):
`1-{days}日` for index 0, otherwise `{DAYS_INTERVALS[index-1]+1}-{days}日`;
an out-of-range index yields JavaScript `NaN` in the interpolation. -/
def formatDayLabel (days : Int) (index : Nat) : String :=
  if index = 0 then "1-" ++ toString days ++ "日"
  else
    match DAYS_INTERVALS[index - 1]? with
    | some prevDays => toString (prevDays + 1) ++ "-" ++ toString days ++ "日"
    | none => "NaN-" ++ toString days ++ "日"

/-- `getDaysRange`, the label function actually used by the table body:
a fixed 30-day window `(daysFrom - 29)-{daysFrom}日`, computed from the
rule's own `days_from` alone. -/
def getDaysRange (daysFrom : Int) : String :=
  toString (daysFrom - 29) ++ "-" ++ toString daysFrom ++ "日"

/-- Stable insertion of a rule into a list sorted ascending by `days_from`. -/
def insertRule (r : RepriceRule) : List RepriceRule → List RepriceRule
  | [] => [r]
  | x :: xs => if x.days_from ≤ r.days_from then x :: insertRule r xs else r :: x :: xs

/-- The `.sort((a, b) => a.days_from - b.days_from)` applied before
rendering, modelled as a stable insertion sort by `days_from`. -/
def sortRules : List RepriceRule → List RepriceRule
  | [] => []
  | r :: rs => insertRule r (sortRules rs)

/-- The ordered rule rows the table displays for a config: the
`Array.isArray` coercion followed by the ascending sort. -/
def displayedRules (cfg : RepriceConfig) : List RepriceRule :=
  sortRules (rulesAsArray cfg.reprice_rules)

/-- The day-range column as rendered: `getDaysRange` of each displayed
rule's `days_from`. -/
def rowLabels (cfg : RepriceConfig) : List String :=
  (displayedRules cfg).map fun r => getDaysRange r.days_from

/-! ## Processing-result data model (`repricer.ts`) -/

/-- `ProcessingResult.summary` from `repricer.ts`: the five counters the
backend returns (`log_rows` is the spec's `totalRows`, `q4_switched` the
spec's `seasonalSwitchedRows`, `date_unknown` the spec's `dateUnknownRows`). -/
structure Summary where
  updated_rows : Nat
  excluded_rows : Nat
  q4_switched : Nat
  date_unknown : Nat
  log_rows : Nat
deriving DecidableEq, Repr

/-- `ResultItem` from `repricer.ts` (keys follow the backend response). -/
structure ResultItem where
  sku : String
  productName : Option String
  days : Int
  price : Int
  new_price : Int
  action : String
  priceTrace : Option Int
  new_priceTrace : Option Int
  reason : Option String
deriving DecidableEq, Repr

/-- `ProcessingResult` from `repricer.ts`. -/
structure ProcessingResult where
  summary : Summary
  items : List ResultItem
  updatedCsvContent : Option String
  updatedCsvEncoding : Option String
  reportCsvContent : Option String
deriving DecidableEq, Repr

/-! ## Preview/apply request flow (`runProcessing`) -/

/-- The two processing modes of `runProcessing`. -/
inductive Mode where
  | preview
  | apply
deriving DecidableEq, Repr

/-- The configured API base URL (`NEXT_PUBLIC_API_BASE_URL` fallback). -/
def API_URL : String := "http://localhost:8000"

/-- The endpoint chosen by `runProcessing`: `/repricer/preview` for preview
mode and `/repricer/apply` for apply mode. -/
def endpointFor : Mode → String
  | .preview => API_URL ++ "/repricer/preview"
  | .apply => API_URL ++ "/repricer/apply"

/-- The POST request `runProcessing` sends: the mode-dependent endpoint and
a form-data body holding the selected file (modelled by its raw content). -/
structure ClientRequest where
  endpoint : String
  formDataFile : String
deriving DecidableEq, Repr

/-- `runProcessing`'s request construction. -/
def buildRequest (mode : Mode) (file : String) : ClientRequest :=
  { endpoint := endpointFor mode, formDataFile := file }

/-- Does the character list `s` start with `p`? (helper for `strIncludes`). -/
def charsLeadWith : List Char → List Char → Bool
  | _, [] => true
  | [], _ :: _ => false
  | a :: as, b :: bs => a = b && charsLeadWith as bs

/-- Does the character list `s` contain `p` as a contiguous run? -/
def charsInclude : List Char → List Char → Bool
  | [], p => p.isEmpty
  | a :: t, p => charsLeadWith (a :: t) p || charsInclude t p

/-- JavaScript's `String.prototype.includes` (case-sensitive substring). -/
def strIncludes (s sub : String) : Bool := charsInclude s.toList sub.toList

/-- The schema-specific user message produced by `runProcessing`. -/
def schemaErrorMessage : String :=
  "CSVファイルの形式が正しくありません。必要な列：SKU, price, akaji が含まれているか確認してください。"

/-- The empty-file user message produced by `runProcessing`. -/
def emptyFileMessage : String :=
  "CSVファイルが空です。データが含まれているか確認してください。"

/-- The unreadable-file user message produced by `runProcessing`. -/
def unreadableFileMessage : String :=
  "CSVファイルの読み込みに失敗しました。ファイル形式を確認してください。"

/-- The error-detail → user-message mapping in `runProcessing`'s `!res.ok`
branch: schema errors (detail mentioning `Required columns missing` or
`price`) get the schema message, empty-file and unreadable-file details get
their messages, anything else the generic `APIエラー` text. -/
def mapErrorDetail (status : Nat) (errorDetail : String) : String :=
  if strIncludes errorDetail "Required columns missing" || strIncludes errorDetail "price" then
    schemaErrorMessage
  else if strIncludes errorDetail "CSV file is empty" then
    emptyFileMessage
  else if strIncludes errorDetail "Could not read or parse" then
    unreadableFileMessage
  else
    "APIエラー: " ++ toString status ++ " - " ++ errorDetail

/-- A successful backend response body, as read by `runProcessing`. -/
structure ApiBody where
  summary : Summary
  items : List ResultItem
  updatedCsvContent : Option String
  updatedCsvEncoding : Option String
  reportCsvContent : Option String
deriving DecidableEq, Repr

/-- The backend HTTP response seen by `runProcessing`: either an `ok` body
or an error status with its `detail` text. -/
inductive ApiResponse where
  | ok (body : ApiBody)
  | err (status : Nat) (detail : String)
deriving DecidableEq, Repr

/-- What `runProcessing` leaves in the component state: a `ProcessingResult`
on success, or only an error message (no result is ever set) on failure. -/
inductive ClientOutcome where
  | success (result : ProcessingResult)
  | failure (message : String)
deriving DecidableEq, Repr

/-- The response-body → `ProcessingResult` conversion in `runProcessing`
(field-by-field copy; no mode dependence). -/
def parseApiBody (b : ApiBody) : ProcessingResult :=
  { summary := b.summary
    items := b.items
    updatedCsvContent := b.updatedCsvContent
    updatedCsvEncoding := b.updatedCsvEncoding
    reportCsvContent := b.reportCsvContent }

/-- `runProcessing`'s handling of the backend response: parse the body on
success, map the error detail to a user message on failure. -/
def runProcessingOutcome (mode : Mode) (resp : ApiResponse) : ClientOutcome :=
  match mode, resp with
  | _, .ok body => .success (parseApiBody body)
  | _, .err status detail => .failure (mapErrorDetail status detail)

/-! ## Results display and CSV download (`ResultsDisplay.tsx`) -/

/-- The four counters rendered by the summary grid, in render order:
処理対象 (`log_rows`), 更新 (`updated_rows`), 対象外 (`excluded_rows`),
Q4切替 (`q4_switched`). -/
def summaryGridValues (s : Summary) : List Nat :=
  [s.log_rows, s.updated_rows, s.excluded_rows, s.q4_switched]

/-- Value of one Base64 alphabet character, `none` for anything else. -/
def b64Val (c : Char) : Option Nat :=
  if 'A' ≤ c ∧ c ≤ 'Z' then some (c.toNat - 65)
  else if 'a' ≤ c ∧ c ≤ 'z' then some (c.toNat - 97 + 26)
  else if '0' ≤ c ∧ c ≤ '9' then some (c.toNat - 48 + 52)
  else if c = '+' then some 62
  else if c = '/' then some 63
  else none

/-- Base64 decoding of a character sequence into bytes, four characters to
three bytes, honouring `=` padding; `none` on malformed input (the model of
the browser's `atob` raising `InvalidCharacterError`). -/
def b64DecodeChars : List Char → Option (List Nat)
  | [] => some []
  | [c1, c2, '=', '='] => do
      let a ← b64Val c1
      let b ← b64Val c2
      pure [a * 4 + b / 16]
  | [c1, c2, c3, '='] => do
      let a ← b64Val c1
      let b ← b64Val c2
      let c ← b64Val c3
      pure [a * 4 + b / 16, b % 16 * 16 + c / 4]
  | [c1, c2] => do
      let a ← b64Val c1
      let b ← b64Val c2
      pure [a * 4 + b / 16]
  | [c1, c2, c3] => do
      let a ← b64Val c1
      let b ← b64Val c2
      let c ← b64Val c3
      pure [a * 4 + b / 16, b % 16 * 16 + c / 4]
  | c1 :: c2 :: c3 :: c4 :: rest => do
      let a ← b64Val c1
      let b ← b64Val c2
      let c ← b64Val c3
      let d ← b64Val c4
      let tail ← b64DecodeChars rest
      pure ([a * 4 + b / 16, b % 16 * 16 + c / 4, c % 4 * 64 + d] ++ tail)
  | [_] => none

/-- The browser's `atob`: Base64-decode a string to raw bytes, `none` when
the input is not valid Base64. -/
def atob (content : String) : Option (List Nat) :=
  b64DecodeChars content.toList

/-- The `Blob` built by `handleDownload`: either raw CP932 bytes
(`type text/csv`) or a plain UTF-8 string (`type text/csv;charset=utf-8`). -/
inductive BlobContent where
  | binaryCsv (bytes : List Nat)
  | utf8Csv (text : String)
deriving DecidableEq, Repr

/-- `handleDownload`'s blob construction: when the signalled encoding is
`cp932-base64`, Base64-decode the content into bytes; on a decoding failure
fall back to the plain UTF-8 string; for any other (or absent) encoding,
write the content as UTF-8 text. -/
def handleDownload (content : String) (encoding : Option String) : BlobContent :=
  if encoding = some "cp932-base64" then
    match atob content with
    | some bytes => .binaryCsv bytes
    | none => .utf8Csv content
  else
    .utf8Csv content

/-! ## The repricing engine

The server-side engine's source is not part of the repository snapshot
(only its caller, the PWA client, is), so the engine below is modelled
from the specification (§3–§4, §7). -/

/-- Modelled from the spec: the action enum of a `RepriceRule`
(`hold, autoTrack, markdown1pct..markdown5pct, markdownIgnoreProfit,
exclude`); the five percentage markdowns are `markdownPct n`, `n ∈ 1..5`. -/
inductive SpecAction where
  | hold
  | autoTrack
  | markdownPct (n : Nat)
  | markdownIgnoreProfit
  | excludeItem
deriving DecidableEq, Repr

/-- Is the action one of the markdown actions
(`markdown1pct..markdown5pct, markdownIgnoreProfit`)? -/
def isMarkdownAction : SpecAction → Bool
  | .markdownPct _ => true
  | .markdownIgnoreProfit => true
  | _ => false

/-- Modelled from the spec: one engine-side rule — bucket upper bound
`daysFrom`, the action, and the auto-track mode to request. -/
structure SpecRule where
  daysFrom : Nat
  action : SpecAction
  autoTrackMode : Nat
deriving DecidableEq, Repr

/-- Modelled from the spec: `RuleConfig` — the ordered rule table plus the
seasonal-rule toggle, an immutable snapshot for the duration of a run. -/
structure RuleConfig where
  seasonalRuleEnabled : Bool
  rules : List SpecRule
deriving DecidableEq, Repr

/-- Modelled from the spec: `ListingRecord` — one parsed input row; yen
amounts are whole-yen naturals and `daysSinceListed = none` is the
"unknown" sentinel. -/
structure ListingRecord where
  sku : String
  currentPrice : Nat
  floorPrice : Nat
  currentAutoTrackMode : Nat
  daysSinceListed : Option Nat
deriving DecidableEq, Repr

/-- A calendar date within a year, month and day. -/
structure MDDate where
  month : Nat
  day : Nat
deriving DecidableEq, Repr

/-- Modelled from the spec: the fixed seasonal window — "the first full
week of October, inclusive of both boundary dates", taken as October 1–7. -/
def inSeasonalWindow (d : MDDate) : Bool :=
  d.month = 10 && 1 ≤ d.day && d.day ≤ 7

/-- The candidate price of an N% markdown: `currentPrice × (1 − N/100)`
rounded down to whole yen (natural division). -/
def markdownCandidate (currentPrice n : Nat) : Nat :=
  currentPrice * (100 - n) / 100

/-- The result of `resolve`: new price, new auto-track mode, the effective
action name reported downstream, and whether the seasonal override fired. -/
structure ResolveOut where
  newPrice : Nat
  newAutoTrackMode : Nat
  effectiveAction : SpecAction
  seasonalSwitched : Bool
deriving DecidableEq, Repr

/-- Modelled from the spec: `ActionResolver.resolve` (§4.2) — first the
seasonal override check (enabled flag, date inside the window, matched
action a markdown action → effective action `autoTrack` with mode 1), then
the action dispatch with the profit-floor guard on percentage markdowns
(`max candidate floorPrice`), the guard deliberately not applied on
`markdownIgnoreProfit` (computed as the 1% step). -/
def resolve (r : ListingRecord) (matchedRule : SpecRule)
    (seasonalRuleEnabled : Bool) (currentDate : MDDate) : ResolveOut :=
  let seasonal := seasonalRuleEnabled && inSeasonalWindow currentDate
      && isMarkdownAction matchedRule.action
  let act := if seasonal then SpecAction.autoTrack else matchedRule.action
  let mode := if seasonal then 1 else matchedRule.autoTrackMode
  match act with
  | .hold => ⟨r.currentPrice, r.currentAutoTrackMode, .hold, false⟩
  | .autoTrack => ⟨r.currentPrice, mode, .autoTrack, seasonal⟩
  | .markdownPct n =>
      ⟨max (markdownCandidate r.currentPrice n) r.floorPrice,
        r.currentAutoTrackMode, .markdownPct n, false⟩
  | .markdownIgnoreProfit =>
      ⟨markdownCandidate r.currentPrice 1, r.currentAutoTrackMode,
        .markdownIgnoreProfit, false⟩
  | .excludeItem => ⟨r.currentPrice, r.currentAutoTrackMode, .excludeItem, false⟩

/-- Stable insertion into a rule list sorted ascending by `daysFrom`. -/
def insertSpecRule (r : SpecRule) : List SpecRule → List SpecRule
  | [] => [r]
  | x :: xs => if x.daysFrom ≤ r.daysFrom then x :: insertSpecRule r xs else r :: x :: xs

/-- Sort the engine rules ascending by `daysFrom`. -/
def sortSpecRules : List SpecRule → List SpecRule
  | [] => []
  | r :: rs => insertSpecRule r (sortSpecRules rs)

/-- Modelled from the spec: `AgeClassifier.classify` (§4.1) — over the rules
sorted ascending by `daysFrom`, the first rule whose `daysFrom ≥ d`; if none,
the rule with the largest `daysFrom`; `none` when the table is empty (the
record is then treated as date-unknown). -/
def classify (d : Nat) (rules : List SpecRule) : Option SpecRule :=
  let sorted := sortSpecRules rules
  match sorted.find? (fun r => d ≤ r.daysFrom) with
  | some r => some r
  | none => sorted.getLast?

/-- The readable name of an effective action, as reported in result items. -/
def actionName : SpecAction → String
  | .hold => "hold"
  | .autoTrack => "autoTrack"
  | .markdownPct n => "markdown" ++ toString n ++ "pct"
  | .markdownIgnoreProfit => "markdownIgnoreProfit"
  | .excludeItem => "exclude"

/-- One engine result item (the per-record detail returned to callers). -/
structure EngineItem where
  sku : String
  days : Option Nat
  price : Nat
  newPrice : Nat
  currentAutoTrackMode : Nat
  newAutoTrackMode : Nat
  action : String
deriving DecidableEq, Repr

/-- A processed record together with its summary-counter contributions. -/
structure RecordOutcome where
  item : EngineItem
  updated : Bool
  excluded : Bool
  seasonalSwitched : Bool
  dateUnknown : Bool
deriving DecidableEq, Repr

/-- Modelled from the spec: processing of a single `ListingRecord` — an
unknown listing age (or an empty/unmatchable rule table) passes the record
through unchanged and counts as date-unknown; otherwise classify then
resolve; a record counts as updated iff its price or auto-track mode
changed and the action is not `exclude`. -/
def processRecord (cfg : RuleConfig) (currentDate : MDDate)
    (r : ListingRecord) : RecordOutcome :=
  let passthrough : RecordOutcome :=
    ⟨⟨r.sku, r.daysSinceListed, r.currentPrice, r.currentPrice,
      r.currentAutoTrackMode, r.currentAutoTrackMode, "dateUnknown"⟩,
      false, false, false, true⟩
  match r.daysSinceListed with
  | none => passthrough
  | some d =>
      match classify d cfg.rules with
      | none => passthrough
      | some rule =>
          let out := resolve r rule cfg.seasonalRuleEnabled currentDate
          let isExcl := out.effectiveAction == SpecAction.excludeItem
          let changed := out.newPrice != r.currentPrice
              || out.newAutoTrackMode != r.currentAutoTrackMode
          ⟨⟨r.sku, some d, r.currentPrice, out.newPrice,
            r.currentAutoTrackMode, out.newAutoTrackMode,
            actionName out.effectiveAction⟩,
            changed && !isExcl, isExcl, out.seasonalSwitched, false⟩

/-- The run summary folded from the record outcomes: `log_rows` counts every
processed record, the other four counters count the records flagged for
them. -/
def summaryOf (outs : List RecordOutcome) : Summary :=
  { updated_rows := (outs.filter (·.updated)).length
    excluded_rows := (outs.filter (·.excluded)).length
    q4_switched := (outs.filter (·.seasonalSwitched)).length
    date_unknown := (outs.filter (·.dateUnknown)).length
    log_rows := outs.length }

/-- The decoded input CSV: a header row and data rows. -/
structure CsvTable where
  headers : List String
  rows : List (List String)
deriving DecidableEq, Repr

/-- The required input columns: SKU, current price, profit-floor price. -/
def requiredColumns : List String := ["SKU", "price", "akaji"]

/-- The required columns absent from the input's header row. -/
def missingColumns (t : CsvTable) : List String :=
  requiredColumns.filter fun c => !(t.headers.contains c)

/-- The cell of a row under a named column, when both exist. -/
def cellFor (headers row : List String) (col : String) : Option String :=
  match headers.findIdx? (fun h => h = col) with
  | some i => row[i]?
  | none => none

/-- The value of one decimal digit character, `none` for anything else. -/
def digitVal (c : Char) : Option Nat :=
  if '0' ≤ c ∧ c ≤ '9' then some (c.toNat - 48) else none

/-- Accumulating decimal parse over the remaining characters; fails on the
first non-digit. -/
def strToNatAux : List Char → Nat → Option Nat
  | [], acc => some acc
  | c :: cs, acc =>
      match digitVal c with
      | some d => strToNatAux cs (acc * 10 + d)
      | none => none

/-- Parse a non-empty all-digit string as a natural number, `none`
otherwise (the numeric field parse of the row reader). -/
def strToNat (s : String) : Option Nat :=
  match s.toList with
  | [] => none
  | cs => strToNatAux cs 0

/-- Modelled from the spec: row → `ListingRecord` construction — an
unparsable SKU/price/floor fails the single row (`RecordParseError`, the
row is skipped); an unparsable or absent listing age yields the "unknown"
sentinel rather than a failure. -/
def parseRecord (headers row : List String) : Option ListingRecord := do
  let sku ← cellFor headers row "SKU"
  let priceStr ← cellFor headers row "price"
  let price ← strToNat priceStr
  let akajiStr ← cellFor headers row "akaji"
  let akaji ← strToNat akajiStr
  let traceMode := ((cellFor headers row "priceTrace").bind strToNat).getD 0
  let days := (cellFor headers row "days").bind strToNat
  pure ⟨sku, price, akaji, traceMode, days⟩

/-- Modelled from the spec: the run-level error taxonomy — `SchemaError`
(required column missing, with the missing-column list, or a file with zero
data rows) is fatal to the run; per-row `RecordParseError`s never appear
here because they only skip their row. -/
inductive EngineError where
  | schemaMissingColumns (cols : List String)
  | schemaNoDataRows
deriving DecidableEq, Repr

/-- Modelled from the spec: the mode-independent core of a run — schema
validation first (fail fast, before any row processing), then per-row
parse/classify/resolve with unparsable rows skipped. -/
def runCore (csv : CsvTable) (cfg : RuleConfig) (currentDate : MDDate) :
    Except EngineError (List RecordOutcome) :=
  if missingColumns csv = [] then
    if csv.rows = [] then
      .error .schemaNoDataRows
    else
      let records := csv.rows.filterMap (parseRecord csv.headers)
      .ok (records.map (processRecord cfg currentDate))
  else
    .error (.schemaMissingColumns (missingColumns csv))

/-- The updated listing CSV rows: only the records with a detected change,
with the mutated values. -/
def updatedCsvRows (outs : List RecordOutcome) : List (List String) :=
  (outs.filter (·.updated)).map fun o =>
    [o.item.sku, toString o.item.newPrice, toString o.item.newAutoTrackMode]

/-- The report CSV rows: one row per processed record, excluded ones
included. -/
def reportCsvRows (outs : List RecordOutcome) : List (List String) :=
  outs.map fun o =>
    [o.item.sku, (o.item.days.map toString).getD "unknown",
      toString o.item.price, toString o.item.newPrice,
      toString o.item.currentAutoTrackMode, toString o.item.newAutoTrackMode,
      o.item.action]

/-- The full run output: summary, per-item detail, and — in apply mode
only — the serialized updated CSV and report CSV. -/
structure RunOutput where
  summary : Summary
  items : List EngineItem
  updatedCsv : Option (List (List String))
  reportCsv : Option (List (List String))
deriving DecidableEq, Repr

/-- Modelled from the spec: `RepricingEngine.run` (§4.3) — preview and apply
perform the same computation; apply additionally serializes the updated
listing CSV and the change-report CSV. -/
def runEngine (csv : CsvTable) (cfg : RuleConfig) (currentDate : MDDate)
    (mode : Mode) : Except EngineError RunOutput :=
  (runCore csv cfg currentDate).map fun outs =>
    { summary := summaryOf outs
      items := outs.map (·.item)
      updatedCsv := if mode = .apply then some (updatedCsvRows outs) else none
      reportCsv := if mode = .apply then some (reportCsvRows outs) else none }

/-! ## Claims -/

/-- C4 (counterexample): after an edit through `handleRuleChange`, a rule
other than the edited one keeps a stale nonzero `value` even though its
action is not `priceTrace` — the claimed invariant fails on the result of
editing the `days_from = 30` rule while the `days_from = 60` rule carries
`maintain` with value `5`. -/
theorem handleRuleChange_stale_value_cex :
    ¬ (∀ r ∈ handleRuleChange 30 (.setAction "maintain")
        [⟨30, "maintain", some 0⟩, ⟨60, "maintain", some 5⟩],
        r.action ≠ "priceTrace" → r.value = some 0) := by
  decide

/-- C4 (amended): changing a rule's action to any non-`priceTrace` action
resets that rule's `value` to `0`; hence an action edit preserves the
invariant (every non-`priceTrace` rule has value `0`) whenever it already
held — but `handleRuleChange` does not normalize rules other than the
edited one, so the invariant is only preserved, not established. -/
theorem handleRuleChange_action_edit_invariant
    (rules : List RepriceRule) (d : Int) (a : String)
    (hinv : ∀ r ∈ rules, r.action ≠ "priceTrace" → r.value = some 0) :
    (∀ r ∈ handleRuleChange d (.setAction a) rules,
      r.action ≠ "priceTrace" → r.value = some 0) ∧
    (∀ r : RepriceRule, a ≠ "priceTrace" →
      applyEdit (.setAction a) r = { r with action := a, value := some 0 }) := by
  constructor
  · intro r hr
    rw [handleRuleChange, List.mem_map] at hr
    obtain ⟨s, hs, hmap⟩ := hr
    by_cases hd : s.days_from = d
    · rw [if_pos hd] at hmap
      subst hmap
      by_cases ha : a = "priceTrace"
      · intro hact
        exfalso
        apply hact
        subst ha
        simp only [applyEdit, ne_eq, not_true_eq_false, if_false]
        split <;> rfl
      · intro _
        simp only [applyEdit, ne_eq, ha, not_false_eq_true, if_true]
    · rw [if_neg hd] at hmap
      subst hmap
      exact hinv s hs
  · intro r ha
    simp only [applyEdit, ne_eq, ha, not_false_eq_true, if_true]

/-- C4 (witness): a concrete action edit on a well-formed rule list keeps
the invariant, and switching the edited rule to `price_down_1` resets its
value to `0`. -/
theorem handleRuleChange_action_edit_invariant_witness :
    (∀ r ∈ handleRuleChange 30 (.setAction "price_down_1")
        [⟨30, "priceTrace", some 3⟩],
      r.action ≠ "priceTrace" → r.value = some 0) ∧
    applyEdit (.setAction "price_down_1") ⟨30, "priceTrace", some 3⟩
      = ⟨30, "price_down_1", some 0⟩ :=
  ⟨(handleRuleChange_action_edit_invariant
      [⟨30, "priceTrace", some 3⟩] 30 "price_down_1" (by decide)).1,
    (handleRuleChange_action_edit_invariant
      [⟨30, "priceTrace", some 3⟩] 30 "price_down_1" (by decide)).2
      ⟨30, "priceTrace", some 3⟩ (by decide)⟩

/-- C5 (counterexample): the mapping-by-string-key form of `reprice_rules`
is not normalized into the equivalent ordered list — a config holding one
rule as a mapping displays no rule rows, while the same rule as a list
displays one, so the observable behavior of the two representations
differs. -/
theorem mapping_rules_not_normalized_cex :
    displayedRules ⟨none, .list [⟨30, "maintain", some 0⟩], ""⟩
      = [⟨30, "maintain", some 0⟩] ∧
    displayedRules ⟨none, .mapping [("30", ⟨30, "maintain", some 0⟩)], ""⟩ = [] ∧
    displayedRules ⟨none, .list [⟨30, "maintain", some 0⟩], ""⟩
      ≠ displayedRules ⟨none, .mapping [("30", ⟨30, "maintain", some 0⟩)], ""⟩ := by
  refine ⟨rfl, rfl, ?_⟩
  decide

/-- C5 (amended): the component branches on the arriving shape via the
`Array.isArray` coercion and treats any mapping-shaped `reprice_rules` as
the empty rule list, for display and for editing alike; only the ordered
list form reaches the rule table, so the two representations agree exactly
when the mapping denotes no rules. -/
theorem mapping_rules_empty_normalization :
    (∀ m, rulesAsArray (.mapping m) = []) ∧
    (∀ rs, rulesAsArray (.list rs) = rs) ∧
    (∀ m q u, displayedRules ⟨q, .mapping m, u⟩ = []) ∧
    (∀ m q u d e, handleRuleChangeConfig d e ⟨q, .mapping m, u⟩ = ⟨q, .list [], u⟩) ∧
    (∀ rs q u d e, handleRuleChangeConfig d e ⟨q, .list rs, u⟩
      = ⟨q, .list (handleRuleChange d e rs), u⟩) :=
  ⟨fun _ => rfl, fun _ => rfl, fun _ _ _ => rfl, fun _ _ _ _ _ => rfl,
    fun _ _ _ _ _ => rfl⟩

/-- C8 (counterexample): the rendered day-range column ignores the previous
rule's `days_from` — for the sorted rules with `days_from` 20 and 60 the
claimed labels are `1-20日` and `21-60日`, but the table renders the fixed
30-day windows `-9-20日` and `31-60日`. -/
theorem dayRange_spacing_cex :
    rowLabels ⟨none, .list [⟨20, "maintain", some 0⟩, ⟨60, "maintain", some 0⟩], ""⟩
      = ["-9-20日", "31-60日"] ∧
    rowLabels ⟨none, .list [⟨20, "maintain", some 0⟩, ⟨60, "maintain", some 0⟩], ""⟩
      ≠ ["1-20日", "21-60日"] := by
  refine ⟨rfl, ?_⟩
  decide

/-- C8 (amended): the day range displayed for a rule is the fixed 30-day
window `(days_from − 29)`–`days_from`, computed from the rule's own
`days_from` alone; it coincides with the claimed bucket
`(previous days_from + 1)`–`days_from` exactly when the previous rule's
`days_from` is 30 less, and with `1`–`days_from` for the first rule exactly
when its `days_from` is 30. -/
theorem dayRange_fixed_window (cfg : RepriceConfig) (p d : Int)
    (h : p = d - 30) :
    rowLabels cfg = (displayedRules cfg).map
      (fun r => toString (r.days_from - 29) ++ "-" ++ toString r.days_from ++ "日") ∧
    getDaysRange d = toString (p + 1) ++ "-" ++ toString d ++ "日" ∧
    getDaysRange 30 = "1-30日" := by
  subst h
  refine ⟨rfl, ?_, by decide⟩
  have h29 : d - 30 + 1 = d - 29 := by ring
  rw [h29]
  rfl

/-- C8 (witness): the fixed-window label at a concrete rule table and the
bucket coincidence at spacing 30. -/
theorem dayRange_fixed_window_witness :
    rowLabels ⟨none, .list [⟨30, "maintain", some 0⟩, ⟨60, "maintain", some 0⟩], ""⟩
      = (displayedRules ⟨none, .list [⟨30, "maintain", some 0⟩, ⟨60, "maintain", some 0⟩], ""⟩).map
        (fun r => toString (r.days_from - 29) ++ "-" ++ toString r.days_from ++ "日") ∧
    getDaysRange 60 = toString (30 + 1 : Int) ++ "-" ++ toString (60 : Int) ++ "日" ∧
    getDaysRange 30 = "1-30日" :=
  dayRange_fixed_window
    ⟨none, .list [⟨30, "maintain", some 0⟩, ⟨60, "maintain", some 0⟩], ""⟩
    30 60 (by decide)

/-- C10 (counterexample): a rule with action `priceTrace` and tracking value
`0` is reachable through the settings editor — the priceTrace dropdown is
enabled for such a rule and offers `追従なし` (value `0`), and the resulting
`handleRuleChange` value edit stores `0` without renormalizing. -/
theorem priceTrace_zero_value_cex :
    handleRuleChange 30 (.setValue 0) [⟨30, "priceTrace", some 1⟩]
      = [⟨30, "priceTrace", some 0⟩] ∧
    ¬ (∀ r ∈ handleRuleChange 30 (.setValue 0) [⟨30, "priceTrace", some 1⟩],
        r.action = "priceTrace" → r.value ≠ some 0) := by
  refine ⟨rfl, ?_⟩
  decide

/-- C10 (amended): when `handleRuleChange` switches a rule's action to
`priceTrace`, a stored value of `0` or `null` becomes `1` and a nonzero
stored value is preserved — so immediately after the switch the value lies
in `1..5` whenever the stored value was in `0..5` or `null`; the `1..5`
bound is not an invariant of every editor-reachable rule, since a later
value edit can store `0` again. -/
theorem priceTrace_switch_value_norm
    (rules : List RepriceRule) (d : Int) (r : RepriceRule)
    (hr : r ∈ rules) (hd : r.days_from = d) :
    applyEdit (.setAction "priceTrace") r
      ∈ handleRuleChange d (.setAction "priceTrace") rules ∧
    (applyEdit (.setAction "priceTrace") r).action = "priceTrace" ∧
    (applyEdit (.setAction "priceTrace") r).value
      = (if r.value = some 0 ∨ r.value = none then some 1 else r.value) ∧
    (r.value = none → (applyEdit (.setAction "priceTrace") r).value = some 1) ∧
    (∀ k : Int, r.value = some k → 0 ≤ k → k ≤ 5 →
      ∃ j : Int, (applyEdit (.setAction "priceTrace") r).value = some j
        ∧ 1 ≤ j ∧ j ≤ 5) := by
  have hmem : applyEdit (.setAction "priceTrace") r
      ∈ handleRuleChange d (.setAction "priceTrace") rules := by
    rw [handleRuleChange, List.mem_map]
    exact ⟨r, hr, by rw [if_pos hd]⟩
  have hval : (applyEdit (.setAction "priceTrace") r).value
      = (if r.value = some 0 ∨ r.value = none then some 1 else r.value) := by
    simp only [applyEdit, ne_eq, not_true_eq_false, if_false]
    split <;> rfl
  have hact : (applyEdit (.setAction "priceTrace") r).action = "priceTrace" := by
    simp only [applyEdit, ne_eq, not_true_eq_false, if_false]
    split <;> rfl
  refine ⟨hmem, hact, hval, ?_, ?_⟩
  · intro hnone
    rw [hval, hnone]
    simp
  · intro k hk h0 h5
    rw [hval, hk]
    by_cases hz : k = 0
    · subst hz
      exact ⟨1, by simp, by omega, by omega⟩
    · refine ⟨k, ?_, by omega, h5⟩
      have : ¬ ((some k : Option Int) = some 0 ∨ (some k : Option Int) = none) := by
        simp [hz]
      rw [if_neg this]

/-- Helper: with the seasonal override armed (flag on, date in window,
matched action a markdown action), `resolve` returns auto-track mode 1 on
an unchanged price and flags the seasonal switch. -/
theorem resolve_seasonal_eq (r : ListingRecord) (rule : SpecRule) (se : Bool)
    (dt : MDDate) (hse : se = true) (hwin : inSeasonalWindow dt = true)
    (hmd : isMarkdownAction rule.action = true) :
    resolve r rule se dt = ⟨r.currentPrice, 1, .autoTrack, true⟩ := by
  subst hse
  simp only [resolve, hwin, hmd, Bool.and_true, Bool.true_and, if_true]

/-- Helper: when the seasonal override is not armed (flag off or date
outside the window), `resolve` dispatches the matched action unmodified. -/
theorem resolve_no_override (r : ListingRecord) (rule : SpecRule) (se : Bool)
    (dt : MDDate)
    (hw : (se && inSeasonalWindow dt && isMarkdownAction rule.action) = false) :
    resolve r rule se dt =
      match rule.action with
      | .hold => ⟨r.currentPrice, r.currentAutoTrackMode, .hold, false⟩
      | .autoTrack => ⟨r.currentPrice, rule.autoTrackMode, .autoTrack, false⟩
      | .markdownPct n =>
          ⟨max (markdownCandidate r.currentPrice n) r.floorPrice,
            r.currentAutoTrackMode, .markdownPct n, false⟩
      | .markdownIgnoreProfit =>
          ⟨markdownCandidate r.currentPrice 1, r.currentAutoTrackMode,
            .markdownIgnoreProfit, false⟩
      | .excludeItem =>
          ⟨r.currentPrice, r.currentAutoTrackMode, .excludeItem, false⟩ := by
  simp only [resolve, hw, Bool.false_eq_true, if_false]

/-- C10 (witness): switching a concrete `maintain`/value-`0` rule to
`priceTrace` lands in the edited list with value `1`. -/
theorem priceTrace_switch_value_norm_witness :
    applyEdit (.setAction "priceTrace") ⟨30, "maintain", some 0⟩
      ∈ handleRuleChange 30 (.setAction "priceTrace") [⟨30, "maintain", some 0⟩] ∧
    (applyEdit (.setAction "priceTrace") ⟨30, "maintain", some 0⟩).value = some 1 :=
  ⟨(priceTrace_switch_value_norm [⟨30, "maintain", some 0⟩] 30
      ⟨30, "maintain", some 0⟩ (by decide) rfl).1,
    ((priceTrace_switch_value_norm [⟨30, "maintain", some 0⟩] 30
      ⟨30, "maintain", some 0⟩ (by decide) rfl).2.2.1).trans (by decide)⟩

/-- C1: whenever `resolve` reports a percentage markdown as the effective
action, the new price is `max(candidatePrice, floorPrice)` with the
candidate rounded down to whole yen — so `newPrice ≥ floorPrice` — while a
record resolved with `markdownIgnoreProfit` gets the bare candidate price
with no floor guard. -/
theorem markdown_floor_guard (r : ListingRecord) (rule : SpecRule) (se : Bool)
    (dt : MDDate) :
    (∀ n, (resolve r rule se dt).effectiveAction = .markdownPct n →
      (resolve r rule se dt).newPrice
        = max (markdownCandidate r.currentPrice n) r.floorPrice ∧
      r.floorPrice ≤ (resolve r rule se dt).newPrice) ∧
    ((resolve r rule se dt).effectiveAction = .markdownIgnoreProfit →
      (resolve r rule se dt).newPrice = markdownCandidate r.currentPrice 1) := by
  by_cases hfull : (se && inSeasonalWindow dt && isMarkdownAction rule.action) = true
  · obtain ⟨hsw, hmd⟩ := Bool.and_eq_true_iff.mp hfull
    obtain ⟨hse, hwin⟩ := Bool.and_eq_true_iff.mp hsw
    rw [resolve_seasonal_eq r rule se dt hse hwin hmd]
    exact ⟨fun n h => absurd h (by simp), fun h => absurd h (by simp)⟩
  · have hfalse : (se && inSeasonalWindow dt && isMarkdownAction rule.action) = false :=
      Bool.eq_false_iff.mpr hfull
    rw [resolve_no_override r rule se dt hfalse]
    cases rule.action with
    | hold => exact ⟨fun n h => absurd h (by simp), fun h => absurd h (by simp)⟩
    | autoTrack => exact ⟨fun n h => absurd h (by simp), fun h => absurd h (by simp)⟩
    | markdownPct m =>
        constructor
        · intro n h
          have h' : SpecAction.markdownPct m = .markdownPct n := h
          injection h' with hmn
          subst hmn
          exact ⟨rfl, le_max_right _ _⟩
        · intro h
          exact absurd h (by simp)
    | markdownIgnoreProfit =>
        exact ⟨fun n h => absurd h (by simp), fun _ => rfl⟩
    | excludeItem => exact ⟨fun n h => absurd h (by simp), fun h => absurd h (by simp)⟩

/-- C1 (witness): a 2% markdown on price 1000 with floor 985 is clamped to
the floor (`max 980 985 = 985 ≥ 985`), while `markdownIgnoreProfit` on price
1000 with floor 2000 yields the unguarded candidate 990 below the floor. -/
theorem markdown_floor_guard_witness :
    ((resolve ⟨"A1", 1000, 985, 0, some 45⟩ ⟨60, .markdownPct 2, 0⟩ false ⟨1, 1⟩).newPrice
        = max (markdownCandidate 1000 2) 985 ∧
      985 ≤ (resolve ⟨"A1", 1000, 985, 0, some 45⟩ ⟨60, .markdownPct 2, 0⟩ false ⟨1, 1⟩).newPrice) ∧
    (resolve ⟨"A2", 1000, 2000, 0, some 45⟩ ⟨60, .markdownIgnoreProfit, 0⟩ false ⟨1, 1⟩).newPrice
      = markdownCandidate 1000 1 ∧
    markdownCandidate 1000 1 < 2000 :=
  ⟨(markdown_floor_guard ⟨"A1", 1000, 985, 0, some 45⟩
      ⟨60, .markdownPct 2, 0⟩ false ⟨1, 1⟩).1 2 (by decide),
    (markdown_floor_guard ⟨"A2", 1000, 2000, 0, some 45⟩
      ⟨60, .markdownIgnoreProfit, 0⟩ false ⟨1, 1⟩).2 (by decide),
    by decide⟩

/-- C3: with the seasonal flag on and the date inside the seasonal window,
every markdown-action rule resolves to `autoTrack` with mode 1 and flags
the seasonal-switch counter (also at the `processRecord` level); with the
flag off or the date outside the window, markdown actions resolve
normally. -/
theorem seasonal_override (r : ListingRecord) (rule : SpecRule) (se : Bool)
    (dt : MDDate) (cfg : RuleConfig) (d : Nat) :
    (se = true → inSeasonalWindow dt = true → isMarkdownAction rule.action = true →
      resolve r rule se dt = ⟨r.currentPrice, 1, .autoTrack, true⟩) ∧
    (se = false ∨ inSeasonalWindow dt = false →
      (∀ n, rule.action = .markdownPct n →
        resolve r rule se dt
          = ⟨max (markdownCandidate r.currentPrice n) r.floorPrice,
              r.currentAutoTrackMode, .markdownPct n, false⟩) ∧
      (rule.action = .markdownIgnoreProfit →
        resolve r rule se dt
          = ⟨markdownCandidate r.currentPrice 1, r.currentAutoTrackMode,
              .markdownIgnoreProfit, false⟩)) ∧
    (cfg.seasonalRuleEnabled = true → inSeasonalWindow dt = true →
      r.daysSinceListed = some d →
      ∀ rule', classify d cfg.rules = some rule' →
        isMarkdownAction rule'.action = true →
        (processRecord cfg dt r).seasonalSwitched = true) := by
  refine ⟨fun hse hwin hmd => resolve_seasonal_eq r rule se dt hse hwin hmd, ?_, ?_⟩
  · intro hdisj
    have hw : (se && inSeasonalWindow dt) = false := by
      cases hdisj with
      | inl h => rw [h, Bool.false_and]
      | inr h => rw [h, Bool.and_false]
    have hfull : (se && inSeasonalWindow dt && isMarkdownAction rule.action) = false := by
      rw [hw, Bool.false_and]
    constructor
    · intro n hact
      rw [resolve_no_override r rule se dt hfull, hact]
    · intro hact
      rw [resolve_no_override r rule se dt hfull, hact]
  · intro hse hwin hdays rule' hcl hmd
    simp only [processRecord, hdays, hcl]
    rw [resolve_seasonal_eq r rule' cfg.seasonalRuleEnabled dt hse hwin hmd]

/-- C3 (witness): on October 3 with the flag on, a matched 1% markdown rule
resolves to auto-track mode 1 with the switch flagged (also through
`processRecord`); on September 30 the same rule resolves to the normal
guarded markdown. -/
theorem seasonal_override_witness :
    resolve ⟨"A3", 1000, 985, 0, some 45⟩ ⟨60, .markdownPct 1, 0⟩ true ⟨10, 3⟩
      = ⟨1000, 1, .autoTrack, true⟩ ∧
    resolve ⟨"A3", 1000, 985, 0, some 45⟩ ⟨60, .markdownPct 1, 0⟩ true ⟨9, 30⟩
      = ⟨max (markdownCandidate 1000 1) 985, 0, .markdownPct 1, false⟩ ∧
    (processRecord ⟨true, [⟨60, .markdownPct 1, 0⟩]⟩ ⟨10, 3⟩
      ⟨"A1", 1000, 985, 0, some 45⟩).seasonalSwitched = true :=
  ⟨(seasonal_override ⟨"A3", 1000, 985, 0, some 45⟩ ⟨60, .markdownPct 1, 0⟩
      true ⟨10, 3⟩ ⟨true, []⟩ 0).1 rfl (by decide) (by decide),
    (seasonal_override ⟨"A3", 1000, 985, 0, some 45⟩ ⟨60, .markdownPct 1, 0⟩
      true ⟨9, 30⟩ ⟨true, []⟩ 0).2.1 (Or.inr (by decide)) |>.1 1 rfl,
    (seasonal_override ⟨"A1", 1000, 985, 0, some 45⟩ ⟨60, .markdownPct 1, 0⟩
      true ⟨10, 3⟩ ⟨true, [⟨60, .markdownPct 1, 0⟩]⟩ 45).2.2 rfl (by decide) rfl
      ⟨60, .markdownPct 1, 0⟩ (by decide) (by decide)⟩

/-- C9: `handleDownload` honors the signalled encoding — for
`cp932-base64` with valid Base64 content the blob holds exactly the decoded
bytes; a Base64 decoding failure falls back to writing the content as UTF-8
text; any other or absent encoding writes the content as UTF-8 text. -/
theorem handleDownload_encoding_contract (content : String) (enc : Option String) :
    (∀ bytes, atob content = some bytes →
      handleDownload content (some "cp932-base64") = .binaryCsv bytes) ∧
    (atob content = none →
      handleDownload content (some "cp932-base64") = .utf8Csv content) ∧
    (enc ≠ some "cp932-base64" → handleDownload content enc = .utf8Csv content) := by
  refine ⟨?_, ?_, ?_⟩
  · intro bytes hb
    simp [handleDownload, hb]
  · intro hb
    simp [handleDownload, hb]
  · intro he
    simp [handleDownload, he]

/-- C9 (witness): `QUJD` decodes to the bytes `65 66 67`; the invalid
Base64 string `%%%` under `cp932-base64` falls back to UTF-8 text; absent
encoding writes UTF-8 text. -/
theorem handleDownload_encoding_contract_witness :
    handleDownload "QUJD" (some "cp932-base64") = .binaryCsv [65, 66, 67] ∧
    handleDownload "%%%" (some "cp932-base64") = .utf8Csv "%%%" ∧
    handleDownload "QUJD" none = .utf8Csv "QUJD" :=
  ⟨(handleDownload_encoding_contract "QUJD" none).1 [65, 66, 67] (by decide),
    (handleDownload_encoding_contract "%%%" none).2.1 (by decide),
    (handleDownload_encoding_contract "QUJD" none).2.2 (by decide)⟩

/-- C2: preview and apply run the same computation — identical summary and
identical per-record items for every input and config — differing only in
that apply additionally carries the serialized updated CSV and report CSV;
in the client, `runProcessing` sends the same form-data body to the two
endpoints and handles the response identically in both modes. -/
theorem preview_apply_equiv (csv : CsvTable) (cfg : RuleConfig) (dt : MDDate)
    (file : String) (resp : ApiResponse) :
    runEngine csv cfg dt .preview
      = (runEngine csv cfg dt .apply).map
          (fun o => { o with updatedCsv := none, reportCsv := none }) ∧
    (runEngine csv cfg dt .preview).map (fun o => (o.summary, o.items))
      = (runEngine csv cfg dt .apply).map (fun o => (o.summary, o.items)) ∧
    (∀ out, runEngine csv cfg dt .apply = .ok out →
      out.updatedCsv ≠ none ∧ out.reportCsv ≠ none) ∧
    (∀ out, runEngine csv cfg dt .preview = .ok out →
      out.updatedCsv = none ∧ out.reportCsv = none) ∧
    (buildRequest .preview file).formDataFile = (buildRequest .apply file).formDataFile ∧
    (buildRequest .preview file).endpoint = API_URL ++ "/repricer/preview" ∧
    (buildRequest .apply file).endpoint = API_URL ++ "/repricer/apply" ∧
    runProcessingOutcome .preview resp = runProcessingOutcome .apply resp := by
  have hpre : runEngine csv cfg dt .preview
      = (runCore csv cfg dt).map
          (fun outs => ⟨summaryOf outs, outs.map (·.item), none, none⟩) := rfl
  have happ : runEngine csv cfg dt .apply
      = (runCore csv cfg dt).map
          (fun outs => ⟨summaryOf outs, outs.map (·.item),
            some (updatedCsvRows outs), some (reportCsvRows outs)⟩) := rfl
  refine ⟨?_, ?_, ?_, ?_, rfl, rfl, rfl, ?_⟩
  · rw [hpre, happ]
    cases runCore csv cfg dt <;> rfl
  · rw [hpre, happ]
    cases runCore csv cfg dt <;> rfl
  · intro out hout
    rw [happ] at hout
    cases hc : runCore csv cfg dt with
    | error e =>
        rw [hc] at hout
        exact absurd hout (by simp [Except.map])
    | ok outs =>
        rw [hc] at hout
        simp only [Except.map] at hout
        injection hout with h
        exact h ▸ ⟨by simp, by simp⟩
  · intro out hout
    rw [hpre] at hout
    cases hc : runCore csv cfg dt with
    | error e =>
        rw [hc] at hout
        exact absurd hout (by simp [Except.map])
    | ok outs =>
        rw [hc] at hout
        simp only [Except.map] at hout
        injection hout with h
        exact h ▸ ⟨rfl, rfl⟩
  · cases resp <;> rfl

/-- C2 (witness): on a concrete one-row CSV the two modes agree on summary
and items, apply carries both serialized CSVs, and a concrete error
response is handled identically by both modes. -/
theorem preview_apply_equiv_witness :
    (runEngine ⟨["SKU", "price", "akaji", "days"], [["A", "100", "90", "45"]]⟩
        ⟨false, [⟨60, .markdownPct 1, 0⟩]⟩ ⟨1, 1⟩ .preview).map
        (fun o => (o.summary, o.items))
      = (runEngine ⟨["SKU", "price", "akaji", "days"], [["A", "100", "90", "45"]]⟩
        ⟨false, [⟨60, .markdownPct 1, 0⟩]⟩ ⟨1, 1⟩ .apply).map
        (fun o => (o.summary, o.items)) ∧
    (⟨⟨1, 0, 0, 0, 1⟩, [⟨"A", some 45, 100, 99, 0, 0, "markdown1pct"⟩],
        some [["A", "99", "0"]],
        some [["A", "45", "100", "99", "0", "0", "markdown1pct"]]⟩ : RunOutput).updatedCsv
      ≠ none ∧
    runProcessingOutcome .preview (.err 400 "boom")
      = runProcessingOutcome .apply (.err 400 "boom") :=
  ⟨(preview_apply_equiv ⟨["SKU", "price", "akaji", "days"], [["A", "100", "90", "45"]]⟩
      ⟨false, [⟨60, .markdownPct 1, 0⟩]⟩ ⟨1, 1⟩ "f" (.err 400 "boom")).2.1,
    ((preview_apply_equiv ⟨["SKU", "price", "akaji", "days"], [["A", "100", "90", "45"]]⟩
      ⟨false, [⟨60, .markdownPct 1, 0⟩]⟩ ⟨1, 1⟩ "f" (.err 400 "boom")).2.2.1
      ⟨⟨1, 0, 0, 0, 1⟩, [⟨"A", some 45, 100, 99, 0, 0, "markdown1pct"⟩],
        some [["A", "99", "0"]],
        some [["A", "45", "100", "99", "0", "0", "markdown1pct"]]⟩ rfl).1,
    (preview_apply_equiv ⟨["SKU", "price", "akaji", "days"], [["A", "100", "90", "45"]]⟩
      ⟨false, [⟨60, .markdownPct 1, 0⟩]⟩ ⟨1, 1⟩ "f" (.err 400 "boom")).2.2.2.2.2.2.2⟩

/-- C6: the summary is exactly the five counters of
`ProcessingResult.summary` (`log_rows` = totalRows, `updated_rows`,
`excluded_rows`, `q4_switched` = seasonalSwitchedRows, `date_unknown` =
dateUnknownRows); the client surfaces the backend summary verbatim in the
result it sets, and the engine's `log_rows` counts every returned item. -/
theorem summary_five_counters (b : ApiBody) (s : Summary) (csv : CsvTable)
    (cfg : RuleConfig) (dt : MDDate) (mode : Mode) :
    (parseApiBody b).summary = b.summary ∧
    s = ⟨s.updated_rows, s.excluded_rows, s.q4_switched, s.date_unknown, s.log_rows⟩ ∧
    (∀ out, runEngine csv cfg dt mode = .ok out →
      out.summary.log_rows = out.items.length) := by
  refine ⟨rfl, rfl, ?_⟩
  intro out hout
  unfold runEngine at hout
  cases hc : runCore csv cfg dt with
  | error e =>
      rw [hc] at hout
      exact absurd hout (by simp [Except.map])
  | ok outs =>
      rw [hc] at hout
      simp only [Except.map] at hout
      injection hout with h
      subst h
      simp [summaryOf]

/-- C6 (witness): the summary surfaced for a concrete body is the body's
summary, and the engine's concrete run has `log_rows` equal to its item
count. -/
theorem summary_five_counters_witness :
    (parseApiBody ⟨⟨1, 0, 0, 0, 1⟩, [], none, none, none⟩).summary
      = ⟨1, 0, 0, 0, 1⟩ ∧
    (⟨⟨1, 0, 0, 0, 1⟩, [⟨"A", some 45, 100, 99, 0, 0, "markdown1pct"⟩],
        none, none⟩ : RunOutput).summary.log_rows
      = (⟨⟨1, 0, 0, 0, 1⟩, [⟨"A", some 45, 100, 99, 0, 0, "markdown1pct"⟩],
        none, none⟩ : RunOutput).items.length :=
  ⟨(summary_five_counters ⟨⟨1, 0, 0, 0, 1⟩, [], none, none, none⟩ ⟨0, 0, 0, 0, 0⟩
      ⟨["SKU", "price", "akaji", "days"], [["A", "100", "90", "45"]]⟩
      ⟨false, [⟨60, .markdownPct 1, 0⟩]⟩ ⟨1, 1⟩ .preview).1,
    (summary_five_counters ⟨⟨1, 0, 0, 0, 1⟩, [], none, none, none⟩ ⟨0, 0, 0, 0, 0⟩
      ⟨["SKU", "price", "akaji", "days"], [["A", "100", "90", "45"]]⟩
      ⟨false, [⟨60, .markdownPct 1, 0⟩]⟩ ⟨1, 1⟩ .preview).2.2
      ⟨⟨1, 0, 0, 0, 1⟩, [⟨"A", some 45, 100, 99, 0, 0, "markdown1pct"⟩],
        none, none⟩ rfl⟩

/-- C7: a run on a CSV missing a required column fails with the
schema-missing-columns error carrying the missing-column list, a run on a
CSV with zero data rows fails with the schema-empty error, a schema-valid
run always returns a result (per-row parse failures never become run-level
errors, so the two are distinguishable), and the client maps a
schema-error response to the schema-specific message and sets no result. -/
theorem schema_error_contract (csv : CsvTable) (cfg : RuleConfig) (dt : MDDate)
    (mode : Mode) (status : Nat) (detail : String) :
    (missingColumns csv ≠ [] →
      runEngine csv cfg dt mode
        = .error (.schemaMissingColumns (missingColumns csv))) ∧
    (missingColumns csv = [] → csv.rows = [] →
      runEngine csv cfg dt mode = .error .schemaNoDataRows) ∧
    (missingColumns csv = [] → csv.rows ≠ [] →
      ∃ out, runEngine csv cfg dt mode = .ok out) ∧
    (strIncludes detail "Required columns missing" = true →
      runProcessingOutcome mode (.err status detail) = .failure schemaErrorMessage ∧
      ∀ res, runProcessingOutcome mode (.err status detail) ≠ .success res) := by
  refine ⟨?_, ?_, ?_, ?_⟩
  · intro hmc
    unfold runEngine runCore
    rw [if_neg hmc]
    rfl
  · intro hmc hrows
    unfold runEngine runCore
    rw [if_pos hmc, if_pos hrows]
    rfl
  · intro hmc hrows
    unfold runEngine runCore
    rw [if_pos hmc, if_neg hrows]
    exact ⟨_, rfl⟩
  · intro hd
    have hmsg : runProcessingOutcome mode (.err status detail)
        = .failure schemaErrorMessage := by
      cases mode <;> simp [runProcessingOutcome, mapErrorDetail, hd]
    refine ⟨hmsg, fun res h => ?_⟩
    rw [hmsg] at h
    exact ClientOutcome.noConfusion h

/-- C7 (witness): a CSV lacking `akaji` fails with exactly the missing
column named; a headers-only CSV fails with the empty-file error; the
backend detail `Required columns missing: akaji` is mapped to the schema
message. -/
theorem schema_error_contract_witness :
    runEngine ⟨["SKU", "price"], [["A", "100"]]⟩ ⟨false, []⟩ ⟨1, 1⟩ .preview
      = .error (.schemaMissingColumns ["akaji"]) ∧
    runEngine ⟨["SKU", "price", "akaji"], []⟩ ⟨false, []⟩ ⟨1, 1⟩ .preview
      = .error .schemaNoDataRows ∧
    runProcessingOutcome .preview (.err 400 "Required columns missing: akaji")
      = .failure schemaErrorMessage :=
  ⟨(schema_error_contract ⟨["SKU", "price"], [["A", "100"]]⟩ ⟨false, []⟩ ⟨1, 1⟩
      .preview 400 "x").1 (by decide),
    (schema_error_contract ⟨["SKU", "price", "akaji"], []⟩ ⟨false, []⟩ ⟨1, 1⟩
      .preview 400 "x").2.1 (by decide) rfl,
    ((schema_error_contract ⟨["SKU", "price"], [["A", "100"]]⟩ ⟨false, []⟩ ⟨1, 1⟩
      .preview 400 "Required columns missing: akaji").2.2.2 (by decide)).1⟩

end Sedori
